import Mathlib

set_option maxRecDepth 100000

/-!
Verification of the MomentSync client synchronization logic.

The definitions below are shallow embeddings of the JavaScript sources:

* `src/assets/js/moment.js` — the legacy client: optimistic placeholder
  queue (`tempQueue`), the `socket.onmessage` router handling
  `add_moment` / `delete_moment`, `createTempLoadingImage`,
  `removeElement`, endpoint scheme selection, and the `onopen` handler.
* `src/frontend/src/contexts/WebSocketContext.js` — the React client:
  `handleWebSocketMessage`, the `onmessage` parse guard, `sendMessage`,
  reconnect scheduling (`maxReconnectAttempts`, backoff delay), endpoint
  scheme selection, and the `onopen` handler.
* `src/unnamed/part_004` (MomentDetail page) — the typing-indicator
  receiver `handleUserTyping` and the sender `handleTyping` timeout.
-/

/-! ## Model of the legacy client (`src/assets/js/moment.js`) -/

/-- A rendered DOM element inside the `#moments` container: its `id`
attribute and its `innerHTML`. -/
structure Element where
  id : String
  innerHTML : String
  deriving Repr, DecidableEq

/-- Client-side state of `moment.js`: the pending-placeholder FIFO
`tempQueue`, the monotone counter `tempID`, and the children of the
moments container in document order (index 0 is the first child; a DOM
`prepend` is a list cons). -/
structure ClientState where
  tempQueue : List Nat
  tempID : Nat
  moments : List Element
  deriving Repr, DecidableEq

/-- The id string `"tempmoment_" + n` given to a placeholder. -/
def tempName (n : Nat) : String :=
  "tempmoment_" ++ toString n

/-- Placeholder innerHTML set by `createTempLoadingImage`. -/
def uploadingHTML : String :=
  "<figure class=\"image is-5by4 popup\"><img src=\"https://via.placeholder.com/250?text=Uploading...\" alt=\"Moment\"></figure>"

/-- innerHTML written when an existing placeholder is relabelled by an
`add_moment` confirmation (the `if (moment)` branch). -/
def loadedHTMLFound (v : String) : String :=
  "<figure class=\"image is-5by4 popup\"><img class=\"lazy\" src=\"https://via.placeholder.com/250?text=Loading...\" alt=\"Moment\" data-src=\"https://cdn.momentsync.net/momentsync/" ++ v ++ "\"></figure>"

/-- innerHTML written when a brand-new item is created by an
`add_moment` confirmation (the `else` branch; the source string there
lacks the closing `>` of the img tag, which we reproduce). -/
def loadedHTMLNew (v : String) : String :=
  "<figure class=\"image is-5by4 popup\"><img class=\"lazy\" src=\"https://via.placeholder.com/250?text=Loading...\" alt=\"Moment\" data-src=\"https://cdn.momentsync.net/momentsync/" ++ v ++ "\"</figure>"

/-- A placeholder element as created by `createTempLoadingImage`. -/
def tempElem (n : Nat) : Element :=
  ⟨tempName n, uploadingHTML⟩

/-- The element a placeholder becomes when relabelled with canonical
identifier `v`. -/
def loadedElemFound (v : String) : Element :=
  ⟨v, loadedHTMLFound v⟩

/-- The brand-new element created for an unmatched confirmation `v`. -/
def loadedElemNew (v : String) : Element :=
  ⟨v, loadedHTMLNew v⟩

/-- `createTempLoadingImage()`: pushes the current `tempID` onto
`tempQueue`, increments `tempID`, and prepends a placeholder div with id
`"tempmoment_" + tempID` to the container. -/
def createTempLoadingImage (s : ClientState) : ClientState :=
  { tempQueue := s.tempQueue ++ [s.tempID]
    tempID := s.tempID + 1
    moments := tempElem s.tempID :: s.moments }

/-- `"tempmoment_" + tempQueue.shift()`: the id looked up by the
`add_moment` handler together with the queue after the shift.  On an
empty queue, JavaScript `shift()` returns `undefined` and string
concatenation yields `"tempmoment_undefined"`. -/
def shiftName (q : List Nat) : String × List Nat :=
  match q with
  | [] => ("tempmoment_undefined", [])
  | h :: t => (tempName h, t)

/-- In-place mutation of the first element whose id matches `target`
(`moment.id = json.value; moment.innerHTML = ...`), as a list rewrite.
`document.getElementById` resolves to the first match in document
order. -/
def replaceFirst (target : String) (v : String) : List Element → List Element
  | [] => []
  | e :: rest =>
    if e.id = target then loadedElemFound v :: rest
    else e :: replaceFirst target v rest

/-- The `add_moment` arm of `socket.onmessage`: shift the queue, look up
the placeholder element; if it exists, relabel it in place with the
envelope value; otherwise create a brand-new element carrying the value
and prepend it to the container. -/
def handleAddMoment (v : String) (s : ClientState) : ClientState :=
  let p := shiftName s.tempQueue
  if (s.moments.find? (fun e => e.id = p.fst)).isSome then
    { s with tempQueue := p.snd, moments := replaceFirst p.fst v s.moments }
  else
    { s with tempQueue := p.snd, moments := loadedElemNew v :: s.moments }

/-- `removeElement(elementId)`: removes the first element whose id
matches, if any; otherwise leaves the document unchanged. -/
def removeElement (elementId : String) : List Element → List Element
  | [] => []
  | e :: rest =>
    if e.id = elementId then rest
    else e :: removeElement elementId rest

/-- The `delete_moment` arm of `socket.onmessage`. -/
def handleDeleteMoment (v : String) (s : ClientState) : ClientState :=
  { s with moments := removeElement v s.moments }

/-- A `moment.js` protocol envelope: `{ "type": ..., "value": ... }`. -/
structure Envelope where
  type : String
  value : String
  deriving Repr, DecidableEq

/-- `socket.onmessage` of `moment.js`.  The input is the result of
`JSON.parse(e.data)`: `none` models a parse failure.  The handler does
not wrap the parse in try/catch, so a parse failure propagates as an
uncaught exception, modelled as `Except.error`.  A parsed envelope whose
type is neither `add_moment` nor `delete_moment` falls through both
branches: nothing happens (and nothing is logged). -/
def momentOnMessage (parsed : Option Envelope) (s : ClientState) :
    Except Unit ClientState :=
  match parsed with
  | none => .error ()
  | some j =>
    if j.type = "add_moment" then .ok (handleAddMoment j.value s)
    else if j.type = "delete_moment" then .ok (handleDeleteMoment j.value s)
    else .ok s

/-- Processing a sequence of arriving `add_moment` confirmations in
order. -/
def processConfirmations (cs : List String) (s : ClientState) : ClientState :=
  cs.foldl (fun st c => handleAddMoment c st) s

/-- Iterated local submissions: `n` calls of `createTempLoadingImage`. -/
def createN : Nat → ClientState → ClientState
  | 0, s => s
  | n + 1, s => createN n (createTempLoadingImage s)

/-- `wsStart` selection in `moment.js`: starts as `"ws://"` and becomes
`"wss://"` exactly when `loc.protocol === "https:"`. -/
def momentWsStart (pageProtocol : String) : String :=
  if pageProtocol = "https:" then "wss://" else "ws://"

/-- `socket.onopen` of `moment.js`: the complete list of messages the
handler sends, in order — a single `init` envelope whose `value` is the
stored username. -/
def momentOnOpenSends (username : String) : List Envelope :=
  [⟨"init", username⟩]

/-! ## Model of the React client (`src/frontend/src/contexts/WebSocketContext.js`) -/

/-- A parsed message as consumed by `handleWebSocketMessage`, with the
fields the handler reads.  Fields irrelevant to a given type default to
the empty string, mirroring absent JSON fields. -/
structure CtxMsg where
  type : String
  body : String := ""
  uploader : String := ""
  remover : String := ""
  moment_name : String := ""
  deriving Repr, DecidableEq

/-- Observable UI effects of the React message router: toasts shown,
custom DOM events dispatched (by event name), and console log lines. -/
structure CtxUIState where
  toasts : List String
  events : List String
  logs : List String
  deriving Repr, DecidableEq

/-- `handleWebSocketMessage(data)`: the switch over `data.type`.  Every
known arm only appends a toast or dispatches a custom event (`pong`
does nothing); the `default` arm appends a console log line and changes
nothing else. -/
def handleWebSocketMessage (d : CtxMsg) (s : CtxUIState) : CtxUIState :=
  if d.type = "notification" then
    { s with toasts := s.toasts ++ [d.body] }
  else if d.type = "media_added" then
    { s with toasts := s.toasts ++ ["New media added by " ++ d.uploader] }
  else if d.type = "media_removed" then
    { s with toasts := s.toasts ++ ["Media removed by " ++ d.remover] }
  else if d.type = "moment_invitation" then
    { s with toasts := s.toasts ++ ["You have been invited to " ++ d.moment_name] }
  else if d.type = "webrtc_offer" then
    { s with events := s.events ++ ["webrtc-offer"] }
  else if d.type = "webrtc_answer" then
    { s with events := s.events ++ ["webrtc-answer"] }
  else if d.type = "webrtc_ice_candidate" then
    { s with events := s.events ++ ["webrtc-ice-candidate"] }
  else if d.type = "user_typing" then
    { s with events := s.events ++ ["user-typing"] }
  else if d.type = "pong" then
    s
  else
    { s with logs := s.logs ++ ["Unknown WebSocket message type: " ++ d.type] }

/-- The set of message types that have a dedicated arm in
`handleWebSocketMessage`. -/
def ctxKnownTypes : List String :=
  ["notification", "media_added", "media_removed", "moment_invitation",
   "webrtc_offer", "webrtc_answer", "webrtc_ice_candidate", "user_typing",
   "pong"]

/-- `newSocket.onmessage`: `JSON.parse` runs inside try/catch; a parse
failure (`none`) is caught, logged with `console.error`, and the message
is dropped; otherwise the parsed data is routed. -/
def ctxOnMessage (parsed : Option CtxMsg) (s : CtxUIState) : CtxUIState :=
  match parsed with
  | some d => handleWebSocketMessage d s
  | none => { s with logs := s.logs ++ ["Error parsing WebSocket message"] }

/-- `maxReconnectAttempts` in `WebSocketContext.js`. -/
def maxReconnectAttempts : Nat := 5

/-- The backoff delay computed by `scheduleReconnect`:
`Math.min(1000 * Math.pow(2, reconnectAttempts), 30000)`. -/
def reconnectDelay (reconnectAttempts : Nat) : Nat :=
  min (1000 * 2 ^ reconnectAttempts) 30000

/-- The condition in `newSocket.onclose` under which `scheduleReconnect`
is invoked: `event.code !== 1000 && reconnectAttempts <
maxReconnectAttempts`.  A deliberate client-initiated logout closes the
socket with code 1000 (`disconnectWebSocket`). -/
def onCloseTriggersReconnect (closeCode : Nat) (reconnectAttempts : Nat) : Bool :=
  (closeCode != 1000) && (reconnectAttempts < maxReconnectAttempts : Bool)

/-- Observable outcome of one `sendMessage(message)` call: frames handed
to `socket.send`, messages buffered for later retransmission (the code
has no such buffer), console warnings, toasts, and the JavaScript return
value delivered to the caller (`none` models `undefined`; the function
has no `return` statement and takes no callback, so it is `none` on
every path). -/
structure SendOutcome where
  transmitted : List String
  buffered : List String
  warnings : List String
  toasts : List String
  callerResult : Option Bool
  deriving Repr, DecidableEq

/-- The numeric value of `WebSocket.OPEN`. -/
def WebSocketOPEN : Nat := 1

/-- `sendMessage(message)` of `WebSocketContext.js`. -/
def sendMessage (socketExists : Bool) (readyState : Nat) (message : String) :
    SendOutcome :=
  if socketExists && (readyState == WebSocketOPEN) then
    { transmitted := [message], buffered := [], warnings := [],
      toasts := [], callerResult := none }
  else
    { transmitted := [], buffered := [],
      warnings := ["WebSocket not connected"],
      toasts := ["Connection lost. Please refresh the page."],
      callerResult := none }

/-- Scheme selection in `connectWebSocket`:
`window.location.protocol === "https:" ? "wss:" : "ws:"`. -/
def ctxWsProtocol (pageProtocol : String) : String :=
  if pageProtocol = "https:" then "wss:" else "ws:"

/-- The authentication message sent by `newSocket.onopen` in the React
client: `{ type: "auth", token: ..., user: ... }`. -/
structure AuthMsg where
  type : String
  token : String
  user : String
  deriving Repr, DecidableEq

/-- `newSocket.onopen` of the React client: the complete list of
messages the handler sends, in order — a single `auth` message carrying
the stored token and the username. -/
def ctxOnOpenSends (token username : String) : List AuthMsg :=
  [⟨"auth", token, username⟩]

/-! ## Model of the typing indicator (`src/unnamed/part_004`, MomentDetail) -/

/-- The payload of a `user-typing` custom event as read by
`handleUserTyping`: `{ user, is_typing }`. -/
structure TypingEvent where
  user : String
  is_typing : Bool
  deriving Repr, DecidableEq

/-- `handleUserTyping` in the MomentDetail page: the update applied to
the `typingUsers` list for one event.  Events about the local user are
ignored; a start event moves the identity to the back of the list; a
stop event removes it.  There is no other removal path. -/
def handleUserTyping (selfUser : String) (prev : List String)
    (ev : TypingEvent) : List String :=
  if ev.user ≠ selfUser then
    if ev.is_typing then
      prev.filter (fun u => u ≠ ev.user) ++ [ev.user]
    else
      prev.filter (fun u => u ≠ ev.user)
  else prev

/-- Folding a sequence of `user-typing` events through
`handleUserTyping`. -/
def processTypingEvents (selfUser : String) (evs : List TypingEvent)
    (s : List String) : List String :=
  evs.foldl (handleUserTyping selfUser) s

/-- The sender-side inactivity delay in `handleTyping`:
`setTimeout(..., 1000)`. -/
def typingStopDelayMs : Nat := 1000

/-- The typing protocol message `{ type, moment_id, is_typing }` sent by
`sendTyping` / `handleTyping`. -/
structure TypingMsg where
  type : String
  moment_id : String
  is_typing : Bool
  deriving Repr, DecidableEq

/-- The message sent by the `handleTyping` inactivity timeout callback:
a `typing` message with `is_typing: false`. -/
def typingTimeoutMessage (momentId : String) : TypingMsg :=
  ⟨"typing", momentId, false⟩

/-! ## Distinctness of placeholder ids

The `add_moment` handler looks placeholders up by the string
`"tempmoment_" + n`.  Reasoning about which element a lookup hits
requires that distinct counters yield distinct id strings, i.e. that the
decimal rendering `Nat.repr` is injective.  We prove this by relating
the fuelled core renderer to `Nat.digits`. -/

/-- Decimal digit characters of `n`, most significant first, via
`Nat.digits`. -/
def natChars (n : Nat) : List Char :=
  if n = 0 then ['0'] else ((Nat.digits 10 n).map Nat.digitChar).reverse

lemma toDigitsCore_eq_natChars :
    ∀ (fuel n : Nat) (ds : List Char), n < fuel →
      Nat.toDigitsCore 10 fuel n ds = natChars n ++ ds := by
  intro fuel
  induction fuel with
  | zero => intro n ds h; omega
  | succ f ih =>
    intro n ds h
    show (if n / 10 = 0 then Nat.digitChar (n % 10) :: ds
          else Nat.toDigitsCore 10 f (n / 10) (Nat.digitChar (n % 10) :: ds)) =
        natChars n ++ ds
    by_cases h0 : n / 10 = 0
    · rw [if_pos h0]
      have hn : n < 10 := by omega
      have hmod : n % 10 = n := by omega
      by_cases hz : n = 0
      · subst hz
        have hc : Nat.digitChar (0 % 10) = '0' := by decide
        show Nat.digitChar (0 % 10) :: ds = natChars 0 ++ ds
        rw [hc]
        simp [natChars]
      · have hdig : Nat.digits 10 n = [n] := by
          rw [Nat.digits_def' (by norm_num : 1 < 10) (Nat.pos_of_ne_zero hz), h0,
            Nat.digits_zero, hmod]
        simp [natChars, hz, hdig, hmod]
    · rw [if_neg h0]
      have hn0 : n ≠ 0 := by omega
      have hlt : n / 10 < f := by omega
      rw [ih (n / 10) (Nat.digitChar (n % 10) :: ds) hlt]
      have hdig : Nat.digits 10 n = n % 10 :: Nat.digits 10 (n / 10) :=
        Nat.digits_def' (by norm_num : 1 < 10) (Nat.pos_of_ne_zero hn0)
      have : natChars n = natChars (n / 10) ++ [Nat.digitChar (n % 10)] := by
        simp [natChars, hn0, h0, hdig]
      rw [this, List.append_assoc]
      rfl

lemma toDigits_eq_natChars (n : Nat) : Nat.toDigits 10 n = natChars n := by
  have := toDigitsCore_eq_natChars (n + 1) n [] (Nat.lt_succ_self n)
  simpa [Nat.toDigits] using this

lemma digitChar_inj_lt10 (a b : Nat) (ha : a < 10) (hb : b < 10)
    (h : Nat.digitChar a = Nat.digitChar b) : a = b := by
  have key : ∀ x y : Fin 10, Nat.digitChar x.val = Nat.digitChar y.val → x = y := by
    decide
  have := key ⟨a, ha⟩ ⟨b, hb⟩ h
  exact congrArg Fin.val this

lemma map_digitChar_inj :
    ∀ (l₁ l₂ : List Nat), (∀ x ∈ l₁, x < 10) → (∀ x ∈ l₂, x < 10) →
      l₁.map Nat.digitChar = l₂.map Nat.digitChar → l₁ = l₂ := by
  intro l₁
  induction l₁ with
  | nil =>
    intro l₂ _ _ h
    cases l₂ with
    | nil => rfl
    | cons y ys => simp at h
  | cons x xs ih =>
    intro l₂ h₁ h₂ h
    cases l₂ with
    | nil => simp at h
    | cons y ys =>
      simp only [List.map_cons, List.cons.injEq] at h
      have hx : x = y :=
        digitChar_inj_lt10 x y (h₁ x (by simp)) (h₂ y (by simp)) h.1
      have hxs : xs = ys :=
        ih ys (fun z hz => h₁ z (by simp [hz])) (fun z hz => h₂ z (by simp [hz])) h.2
      rw [hx, hxs]

lemma natChars_zero_ne (b : Nat) (hb : b ≠ 0) : natChars 0 ≠ natChars b := by
  intro h
  have hb' : natChars b = ((Nat.digits 10 b).map Nat.digitChar).reverse := by
    simp [natChars, hb]
  have h0 : natChars 0 = ['0'] := by simp [natChars]
  rw [h0, hb'] at h
  have hmap : (Nat.digits 10 b).map Nat.digitChar = ['0'] := by
    have := congrArg List.reverse h
    simpa using this.symm
  cases hd : Nat.digits 10 b with
  | nil => rw [hd] at hmap; simp at hmap
  | cons d rest =>
    rw [hd] at hmap
    cases rest with
    | cons d₂ rest₂ => simp at hmap
    | nil =>
      simp only [List.map_cons, List.map_nil, List.cons.injEq, and_true] at hmap
      have hdlt : d < 10 :=
        Nat.digits_lt_base (by norm_num) (by rw [hd]; simp)
      have hd0 : d = 0 := by
        have : Nat.digitChar d = Nat.digitChar 0 := by simpa using hmap
        exact digitChar_inj_lt10 d 0 hdlt (by norm_num) this
      have : b = 0 := by
        have hofd := Nat.ofDigits_digits 10 b
        rw [hd, hd0] at hofd
        simpa [Nat.ofDigits] using hofd.symm
      exact hb this

lemma natChars_inj {a b : Nat} (h : natChars a = natChars b) : a = b := by
  by_cases ha : a = 0
  · by_cases hb : b = 0
    · rw [ha, hb]
    · subst ha; exact absurd h (natChars_zero_ne b hb)
  · by_cases hb : b = 0
    · subst hb; exact absurd h.symm (natChars_zero_ne a ha)
    · have ha' : natChars a = ((Nat.digits 10 a).map Nat.digitChar).reverse := by
        simp [natChars, ha]
      have hb' : natChars b = ((Nat.digits 10 b).map Nat.digitChar).reverse := by
        simp [natChars, hb]
      rw [ha', hb'] at h
      have hmap : (Nat.digits 10 a).map Nat.digitChar =
          (Nat.digits 10 b).map Nat.digitChar := by
        have := congrArg List.reverse h
        simpa using this
      have hdig : Nat.digits 10 a = Nat.digits 10 b :=
        map_digitChar_inj _ _
          (fun x hx => Nat.digits_lt_base (by norm_num) hx)
          (fun x hx => Nat.digits_lt_base (by norm_num) hx) hmap
      have := congrArg (Nat.ofDigits 10) hdig
      rwa [Nat.ofDigits_digits, Nat.ofDigits_digits] at this

lemma natRepr_inj {a b : Nat} (h : Nat.repr a = Nat.repr b) : a = b := by
  apply natChars_inj
  have ha : Nat.repr a = (natChars a).asString := by
    rw [Nat.repr, toDigits_eq_natChars]
  have hb : Nat.repr b = (natChars b).asString := by
    rw [Nat.repr, toDigits_eq_natChars]
  rw [ha, hb] at h
  exact congrArg String.data h

lemma tempName_inj {a b : Nat} (h : tempName a = tempName b) : a = b := by
  apply natRepr_inj
  have hdata := congrArg String.data h
  simp only [tempName] at hdata
  rw [String.data_append, String.data_append] at hdata
  have : (toString a).data = (toString b).data :=
    List.append_cancel_left hdata
  show Nat.repr a = Nat.repr b
  exact String.ext this

/-! ## Behaviour of the `add_moment` handler -/

lemma find?_id_eq_none (t : String) (A : List Element)
    (hA : ∀ e ∈ A, e.id ≠ t) : A.find? (fun e => e.id = t) = none := by
  rw [List.find?_eq_none]
  intro e he
  simpa using hA e he

lemma find?_append_of_none {p : Element → Bool} {A : List Element}
    (L : List Element) (hA : A.find? p = none) :
    (A ++ L).find? p = L.find? p := by
  induction A with
  | nil => rfl
  | cons e rest ih =>
    simp only [List.find?_cons] at hA ⊢
    cases hp : p e with
    | true => rw [hp] at hA; simp at hA
    | false =>
      rw [hp] at hA
      simp only [List.cons_append, List.find?_cons, hp]
      exact ih hA

lemma replaceFirst_append_no_match (t v : String) {A : List Element}
    (L : List Element) (hA : ∀ e ∈ A, e.id ≠ t) :
    replaceFirst t v (A ++ L) = A ++ replaceFirst t v L := by
  induction A with
  | nil => rfl
  | cons e rest ih =>
    simp only [List.cons_append, replaceFirst, List.append_eq]
    rw [if_neg (hA e (by simp)), ih (fun x hx => hA x (by simp [hx]))]

/-- An `add_moment` confirmation with queue head `h` whose placeholder
element is present: the queue loses exactly its head, and the first
element with id `"tempmoment_" + h` is rewritten in place to carry the
envelope value — regardless of the value. -/
lemma handleAddMoment_found (v : String) (h : Nat) (q' : List Nat)
    (tid : Nat) (A B : List Element)
    (hA : ∀ e ∈ A, e.id ≠ tempName h) :
    handleAddMoment v ⟨h :: q', tid, A ++ tempElem h :: B⟩ =
      ⟨q', tid, A ++ loadedElemFound v :: B⟩ := by
  have hfind : (A ++ tempElem h :: B).find? (fun e => e.id = tempName h) =
      some (tempElem h) := by
    rw [find?_append_of_none _ (find?_id_eq_none _ _ hA)]
    rw [List.find?_cons_of_pos _ (by simp [tempElem])]
  have hrepl : replaceFirst (tempName h) v (A ++ tempElem h :: B) =
      A ++ loadedElemFound v :: B := by
    rw [replaceFirst_append_no_match _ _ _ hA]
    simp only [replaceFirst]
    rw [if_pos (by simp [tempElem])]
  show (if ((A ++ tempElem h :: B).find?
        (fun e => e.id = (shiftName (h :: q')).fst)).isSome then _ else _) = _
  simp only [shiftName]
  rw [hfind]
  simp only [Option.isSome_some, if_true]
  rw [hrepl]

/-- An `add_moment` confirmation with queue head `h` whose placeholder
element is absent (e.g. evicted): the queue still loses exactly its
head, the dequeued entry is discarded, and a brand-new element carrying
the envelope value is prepended; nothing else changes. -/
lemma handleAddMoment_missing (v : String) (h : Nat) (q' : List Nat)
    (tid : Nat) (M : List Element)
    (hM : ∀ e ∈ M, e.id ≠ tempName h) :
    handleAddMoment v ⟨h :: q', tid, M⟩ = ⟨q', tid, loadedElemNew v :: M⟩ := by
  show (if (M.find? (fun e => e.id = (shiftName (h :: q')).fst)).isSome
      then _ else _) = _
  simp only [shiftName]
  rw [find?_id_eq_none _ _ hM]
  simp

/-- An `add_moment` confirmation with the queue empty: the shifted name
is `"tempmoment_undefined"`; provided no rendered element carries that
id, a brand-new element with the envelope value is prepended and
nothing else changes. -/
lemma handleAddMoment_emptyQueue (v : String) (tid : Nat) (M : List Element)
    (hM : ∀ e ∈ M, e.id ≠ "tempmoment_undefined") :
    handleAddMoment v ⟨[], tid, M⟩ = ⟨[], tid, loadedElemNew v :: M⟩ := by
  show (if (M.find? (fun e => e.id = (shiftName ([] : List Nat)).fst)).isSome
      then _ else _) = _
  simp only [shiftName]
  rw [find?_id_eq_none _ _ hM]
  simp

/-- Effect of `n` successive local submissions. -/
lemma createN_spec : ∀ (n : Nat) (s : ClientState),
    createN n s =
      ⟨s.tempQueue ++ List.range' s.tempID n, s.tempID + n,
        (List.range' s.tempID n).reverse.map tempElem ++ s.moments⟩ := by
  intro n
  induction n with
  | zero => intro s; simp [createN]
  | succ m ih =>
    intro s
    show createN m (createTempLoadingImage s) = _
    rw [ih]
    simp only [createTempLoadingImage]
    have hq : (s.tempQueue ++ [s.tempID]) ++ List.range' (s.tempID + 1) m =
        s.tempQueue ++ List.range' s.tempID (m + 1) := by
      rw [List.range'_succ, List.append_assoc]
      rfl
    have htid : s.tempID + 1 + m = s.tempID + (m + 1) := by omega
    have hm : (List.range' (s.tempID + 1) m).reverse.map tempElem ++
        (tempElem s.tempID :: s.moments) =
        (List.range' s.tempID (m + 1)).reverse.map tempElem ++ s.moments := by
      rw [List.range'_succ, List.reverse_cons, List.map_append, List.append_assoc]
      rfl
    rw [hq, htid, hm]

/-- FIFO reconciliation of a run of confirmations: starting from a state
whose queue is `qa ++ qb` and whose container holds (behind an arbitrary
prefix `F` of elements that do not collide with the placeholders of
`qa`) the placeholder elements of the whole queue, newest first,
processing one confirmation per entry of `qa` consumes exactly `qa` (in
FIFO order), rewrites each consumed placeholder in place with the
corresponding confirmation value, and leaves `qb` with its placeholders
pending. -/
lemma processConfirmations_spec :
    ∀ (cs : List String) (qa qb : List Nat) (F rest : List Element) (tid : Nat),
      (qa ++ qb).Nodup →
      cs.length = qa.length →
      (∀ e ∈ F, ∀ k ∈ qa, e.id ≠ tempName k) →
      processConfirmations cs
        ⟨qa ++ qb, tid, F ++ (qa ++ qb).reverse.map tempElem ++ rest⟩ =
      ⟨qb, tid,
        F ++ qb.reverse.map tempElem ++ ((cs.map loadedElemFound).reverse ++ rest)⟩ := by
  intro cs
  induction cs with
  | nil =>
    intro qa qb F rest tid hnd hlen hF
    have hqa : qa = [] := by
      cases qa with
      | nil => rfl
      | cons a as => simp at hlen
    subst hqa
    simp [processConfirmations]
  | cons c cs ih =>
    intro qa qb F rest tid hnd hlen hF
    cases qa with
    | nil => simp at hlen
    | cons h qa' =>
      have hnd' : (h :: (qa' ++ qb)).Nodup := by simpa using hnd
      have hA : ∀ e ∈ F ++ (qa' ++ qb).reverse.map tempElem,
          e.id ≠ tempName h := by
        intro e he
        rcases List.mem_append.mp he with hF' | hT
        · exact hF e hF' h (by simp)
        · rcases List.mem_map.mp hT with ⟨k, hk, rfl⟩
          have hk' : k ∈ qa' ++ qb := List.mem_reverse.mp hk
          have hne : k ≠ h := by
            intro hkh
            subst hkh
            exact (List.nodup_cons.mp hnd').1 hk'
          simp only [tempElem]
          intro hEq
          exact hne (tempName_inj hEq)
      have hshape : F ++ ((h :: qa') ++ qb).reverse.map tempElem ++ rest =
          (F ++ (qa' ++ qb).reverse.map tempElem) ++ tempElem h :: rest := by
        simp [List.reverse_cons, List.append_assoc]
      have hstep :
          handleAddMoment c
            ⟨(h :: qa') ++ qb, tid,
              F ++ ((h :: qa') ++ qb).reverse.map tempElem ++ rest⟩ =
          ⟨qa' ++ qb, tid,
            (F ++ (qa' ++ qb).reverse.map tempElem) ++
              loadedElemFound c :: rest⟩ := by
        rw [hshape]
        exact handleAddMoment_found c h (qa' ++ qb) tid _ rest hA
      have hstep' :
          handleAddMoment c
            ⟨(h :: qa') ++ qb, tid,
              F ++ ((h :: qa') ++ qb).reverse.map tempElem ++ rest⟩ =
          ⟨qa' ++ qb, tid,
            F ++ (qa' ++ qb).reverse.map tempElem ++
              (loadedElemFound c :: rest)⟩ := by
        rw [hstep, List.append_assoc]
      show processConfirmations cs
          (handleAddMoment c
            ⟨(h :: qa') ++ qb, tid,
              F ++ ((h :: qa') ++ qb).reverse.map tempElem ++ rest⟩) = _
      rw [hstep']
      rw [ih qa' qb F (loadedElemFound c :: rest) tid
        (List.nodup_cons.mp hnd').2
        (by simpa using hlen)
        (fun e he k hk => hF e he k (by simp [hk]))]
      simp [List.append_assoc]

/-! ## Behaviour of `removeElement` (deletes) -/

lemma removeElement_not_mem (t : String) :
    ∀ (M : List Element), (∀ e ∈ M, e.id ≠ t) → removeElement t M = M := by
  intro M
  induction M with
  | nil => intro _; rfl
  | cons a rest ih =>
    intro h
    simp only [removeElement]
    rw [if_neg (h a (by simp)), ih (fun e he => h e (by simp [he]))]

lemma removeElement_append_no_match (t : String) {A : List Element}
    (L : List Element) (hA : ∀ e ∈ A, e.id ≠ t) :
    removeElement t (A ++ L) = A ++ removeElement t L := by
  induction A with
  | nil => rfl
  | cons a rest ih =>
    simp only [List.cons_append, removeElement, List.append_eq]
    rw [if_neg (hA a (by simp)), ih (fun e he => hA e (by simp [he]))]

lemma removeElement_no_target (t : String) :
    ∀ (M : List Element), (M.map (fun e => e.id)).Nodup →
      ∀ e ∈ removeElement t M, e.id ≠ t := by
  intro M
  induction M with
  | nil => intro _ e he; simp [removeElement] at he
  | cons a rest ih =>
    intro hnd e he
    have hnd' : (∀ x ∈ rest, ¬x.id = a.id) ∧
        (rest.map (fun e => e.id)).Nodup := by
      simpa using hnd
    simp only [removeElement] at he
    by_cases ha : a.id = t
    · rw [if_pos ha] at he
      intro het
      exact hnd'.1 e he (by rw [het, ha])
    · rw [if_neg ha] at he
      rcases List.mem_cons.mp he with rfl | he'
      · exact ha
      · exact ih hnd'.2 e he'

/-! ## Behaviour of the typing-indicator receiver -/

/-- One `user-typing` event that is not a stop event for `u` never
removes `u` from the currently-typing set. -/
lemma handleUserTyping_preserves (selfUser u : String) (s : List String)
    (ev : TypingEvent) (hne : ¬(ev.user = u ∧ ev.is_typing = false))
    (hu : u ∈ s) : u ∈ handleUserTyping selfUser s ev := by
  unfold handleUserTyping
  by_cases hself : ev.user = selfUser
  · rw [if_neg (by simpa using hself)]
    exact hu
  · rw [if_pos (by simpa using hself)]
    cases ht : ev.is_typing with
    | true =>
      rw [if_pos rfl]
      by_cases huv : u = ev.user
      · subst huv; simp
      · exact List.mem_append_left _
          (List.mem_filter.mpr ⟨hu, by simpa using huv⟩)
    | false =>
      rw [if_neg (by simp)]
      have huv : ev.user ≠ u := fun h => hne ⟨h, ht⟩
      exact List.mem_filter.mpr ⟨hu, by simpa using (Ne.symm huv)⟩

lemma processTypingEvents_preserves (selfUser u : String) :
    ∀ (evs : List TypingEvent) (s : List String),
      u ∈ s →
      (∀ ev ∈ evs, ¬(ev.user = u ∧ ev.is_typing = false)) →
      u ∈ processTypingEvents selfUser evs s := by
  intro evs
  induction evs with
  | nil => intro s hu _; exact hu
  | cons ev rest ih =>
    intro s hu hne
    show u ∈ processTypingEvents selfUser rest (handleUserTyping selfUser s ev)
    exact ih _
      (handleUserTyping_preserves selfUser u s ev (hne ev (by simp)) hu)
      (fun e he => hne e (by simp [he]))

/-! ## Placeholder id shape -/

/-- The decimal rendering of a natural number is nonempty, so every
placeholder id has length at least 12 (11 for `"tempmoment_"` plus at
least one digit). -/
lemma length_tempName (k : Nat) : 12 ≤ (tempName k).length := by
  have hd : (toString k).data = natChars k := by
    show (Nat.repr k).data = natChars k
    rw [Nat.repr, toDigits_eq_natChars]
    rfl
  have hlen : 1 ≤ (toString k).length := by
    show 1 ≤ (toString k).data.length
    rw [hd]
    by_cases hk : k = 0
    · subst hk; simp [natChars]
    · have hne : Nat.digits 10 k ≠ [] := Nat.digits_ne_nil_iff_ne_zero.mpr hk
      simp only [natChars, if_neg hk, List.length_reverse, List.length_map]
      exact List.length_pos.mpr hne
  have h11 : (tempName k).length = 11 + (toString k).length := by
    have hpre : ("tempmoment_" : String).length = 11 := by decide
    simp [tempName, hpre]
  omega

/-- A short string never collides with a placeholder id. -/
lemma short_ne_tempName (c : String) (hc : c.length < 12) (k : Nat) :
    c ≠ tempName k := by
  intro h
  have := length_tempName k
  rw [← h] at this
  omega

example :
    createTempLoadingImage ⟨[], 0, []⟩ =
      ⟨[0], 1, [tempElem 0]⟩ := by rfl

example :
    handleAddMoment "abc" ⟨[0], 1, [tempElem 0]⟩ =
      ⟨[], 1, [loadedElemFound "abc"]⟩ := by
  decide

example :
    handleAddMoment "abc" ⟨[], 0, []⟩ =
      ⟨[], 0, [loadedElemNew "abc"]⟩ := by
  decide

example :
    handleDeleteMoment "abc" ⟨[], 0, [loadedElemNew "abc"]⟩ = ⟨[], 0, []⟩ := by
  decide

/-! ## Claim theorems -/

/-- C1: optimistic reconciliation is positional FIFO.  (i) An
`add_moment` confirmation arriving with a non-empty pending queue is
always consumed by the oldest pending placeholder (the head of
`tempQueue`), whatever identifier the envelope payload carries —
including a confirmation arriving out of submission order, which the
oldest placeholder still consumes (mislabeling it).  (ii) Consequently,
for every sequence of N local `add` mutations submitted before any
confirmation arrives, confirmations arriving in submission order
reconcile placeholder i to confirmation i for all i: each placeholder
element is rewritten in place with the identifier of the matching-rank
confirmation. -/
theorem C1_positional_fifo_reconciliation :
    (∀ (v : String) (h : Nat) (q' : List Nat) (tid : Nat) (A B : List Element),
        (∀ e ∈ A, e.id ≠ tempName h) →
        handleAddMoment v ⟨h :: q', tid, A ++ tempElem h :: B⟩ =
          ⟨q', tid, A ++ loadedElemFound v :: B⟩) ∧
    (∀ (s0 : ClientState) (cs : List String),
        s0.tempQueue = [] →
        processConfirmations cs (createN cs.length s0) =
          ⟨[], s0.tempID + cs.length,
            (cs.map loadedElemFound).reverse ++ s0.moments⟩) := by
  constructor
  · exact handleAddMoment_found
  · intro s0 cs hq
    rw [createN_spec, hq]
    have hspec := processConfirmations_spec cs (List.range' s0.tempID cs.length)
      [] [] s0.moments (s0.tempID + cs.length)
      (by simpa using List.nodup_range' s0.tempID cs.length)
      (by simp)
      (by simp)
    simpa using hspec

/-- Witness for C1: an out-of-order confirmation `"b1"` is consumed by
the oldest placeholder 0 (not placeholder 1), and two ordered
confirmations reconcile placeholders 0 and 1 in rank order. -/
theorem C1_positional_fifo_reconciliation_witness :
    handleAddMoment "b1" ⟨0 :: [1], 2, [tempElem 1] ++ tempElem 0 :: []⟩ =
      ⟨[1], 2, [tempElem 1] ++ loadedElemFound "b1" :: []⟩ ∧
    processConfirmations ["a0", "a1"]
        (createN (["a0", "a1"] : List String).length ⟨[], 0, []⟩) =
      ⟨[], 0 + (["a0", "a1"] : List String).length,
        ((["a0", "a1"] : List String).map loadedElemFound).reverse ++ []⟩ :=
  ⟨C1_positional_fifo_reconciliation.1 "b1" 0 [1] 2 [tempElem 1] []
      (by decide),
   C1_positional_fifo_reconciliation.2 ⟨[], 0, []⟩ ["a0", "a1"] rfl⟩

/-- C2: an `add_moment` confirmation arriving with the pending queue
empty creates a brand-new UI item bearing the envelope identifier and
prepends it to the container; no previously-rendered item and no queue
entry is mutated or removed.  The state hypothesis rules out a rendered
element named `"tempmoment_undefined"` (the lookup id produced by
shifting an empty JS array); protocol identifiers never take that
shape. -/
theorem C2_empty_queue_creates_new_item :
    ∀ (v : String) (tid : Nat) (M : List Element),
      (∀ e ∈ M, e.id ≠ "tempmoment_undefined") →
      handleAddMoment v ⟨[], tid, M⟩ = ⟨[], tid, loadedElemNew v :: M⟩ :=
  handleAddMoment_emptyQueue

/-- Witness for C2 on a concrete state with one rendered item. -/
theorem C2_empty_queue_creates_new_item_witness :
    handleAddMoment "m1" ⟨[], 3, [loadedElemNew "m0"]⟩ =
      ⟨[], 3, loadedElemNew "m1" :: [loadedElemNew "m0"]⟩ :=
  C2_empty_queue_creates_new_item "m1" 3 [loadedElemNew "m0"] (by decide)

/-- C5: handling `delete_moment` for an identifier matching no rendered
item leaves the client state unchanged, and — under the DOM invariant
that rendered element ids are unique — handling the same
`delete_moment` twice equals handling it once.  The handler keys only
on the id, so the local or remote origin of the item is irrelevant. -/
theorem C5_delete_noop_and_idempotent :
    ∀ (v : String) (s : ClientState),
      ((∀ e ∈ s.moments, e.id ≠ v) → handleDeleteMoment v s = s) ∧
      ((s.moments.map (fun e => e.id)).Nodup →
        handleDeleteMoment v (handleDeleteMoment v s) =
          handleDeleteMoment v s) := by
  intro v s
  constructor
  · intro h
    show ({ s with moments := removeElement v s.moments } : ClientState) = s
    rw [removeElement_not_mem v s.moments h]
  · intro hnd
    have h2 : removeElement v (removeElement v s.moments) =
        removeElement v s.moments :=
      removeElement_not_mem v _ (removeElement_no_target v s.moments hnd)
    show ({ s with moments := removeElement v (removeElement v s.moments) } :
        ClientState) = { s with moments := removeElement v s.moments }
    rw [h2]

/-- Witness for C5: deleting an absent id is a no-op, and double
deletion of a present id equals single deletion. -/
theorem C5_delete_noop_and_idempotent_witness :
    handleDeleteMoment "x" ⟨[], 0, [loadedElemNew "y"]⟩ =
      ⟨[], 0, [loadedElemNew "y"]⟩ ∧
    handleDeleteMoment "y"
        (handleDeleteMoment "y" ⟨[], 0, [loadedElemNew "y", loadedElemNew "z"]⟩) =
      handleDeleteMoment "y" ⟨[], 0, [loadedElemNew "y", loadedElemNew "z"]⟩ :=
  ⟨(C5_delete_noop_and_idempotent "x" ⟨[], 0, [loadedElemNew "y"]⟩).1
      (by decide),
   (C5_delete_noop_and_idempotent "y"
      ⟨[], 0, [loadedElemNew "y", loadedElemNew "z"]⟩).2 (by decide)⟩

/-- C8: in both clients the socket scheme is derived from the hosting
protocol of the page and never downgrades: the encrypted scheme is chosen
exactly when the page protocol is `https:`, and the plaintext scheme
otherwise. -/
theorem C8_scheme_follows_page_protocol :
    ∀ pageProtocol : String,
      (momentWsStart pageProtocol = "wss://" ↔ pageProtocol = "https:") ∧
      (momentWsStart pageProtocol = "ws://" ↔ pageProtocol ≠ "https:") ∧
      (ctxWsProtocol pageProtocol = "wss:" ↔ pageProtocol = "https:") ∧
      (ctxWsProtocol pageProtocol = "ws:" ↔ pageProtocol ≠ "https:") := by
  intro p
  have h1 : ("wss://" : String) ≠ "ws://" := by decide
  have h2 : ("wss:" : String) ≠ "ws:" := by decide
  have h1' : ("ws://" : String) ≠ "wss://" := by decide
  have h2' : ("ws:" : String) ≠ "wss:" := by decide
  by_cases hp : p = "https:"
  · simp [momentWsStart, ctxWsProtocol, hp, h1, h2]
  · simp [momentWsStart, ctxWsProtocol, hp, h1', h2']

/-- C3 counterexample: with five consecutive failures already recorded,
an abnormal close (code 1006, not a client logout) schedules no
reconnect — the attempt budget is exhausted, refuting the claim that
reconnect attempts are unbounded with no permanent give-up state. -/
theorem C3_counterexample_bounded_attempts :
    onCloseTriggersReconnect 1006 5 = false ∧ (1006 : Nat) ≠ 1000 := by
  decide

/-- C3 amended: after a close that is not the deliberate logout (code
1000), a reconnect is scheduled with capped exponential backoff (delay
`min(1000·2^n, 30000)`, doubling up to the ceiling) — but only while
the consecutive-failure count is below `maxReconnectAttempts = 5`;
after five failures no further attempt is scheduled. -/
theorem C3_amended_backoff_with_bounded_attempts :
    (∀ (code n : Nat),
        onCloseTriggersReconnect code n = true ↔
          (code ≠ 1000 ∧ n < maxReconnectAttempts)) ∧
    maxReconnectAttempts = 5 ∧
    (∀ n, reconnectDelay n = min (1000 * 2 ^ n) 30000) ∧
    (∀ n, reconnectDelay (n + 1) = min (2 * reconnectDelay n) 30000) ∧
    (∀ n, reconnectDelay n ≤ 30000) := by
  refine ⟨?_, rfl, fun n => rfl, ?_, ?_⟩
  · intro code n
    simp [onCloseTriggersReconnect, maxReconnectAttempts]
  · intro n
    unfold reconnectDelay
    rw [pow_succ]
    have h2 : 1000 * (2 ^ n * 2) = 2 * (1000 * 2 ^ n) := by ring
    rw [h2]
    generalize 1000 * 2 ^ n = a
    omega
  · intro n
    exact Nat.min_le_right _ _

/-- C4 counterexample: `"alice"` enters the currently-typing set via a
start event; after further events, none of which is a stop event for
`"alice"`, she is still in the set — the receiver state transition has
no freshness timeout, so without a stop event the identity is never
removed, refuting the claimed bounded-window removal. -/
theorem C4_counterexample_no_receiver_timeout :
    processTypingEvents "self"
      [⟨"alice", true⟩, ⟨"bob", true⟩, ⟨"bob", false⟩] [] = ["alice"] := by
  decide

/-- C4 amended: an identity in the currently-typing set is removed only
by an explicit stop event for it — processing any event sequence with
no stop event for `u` keeps `u` in the set.  The bounded-time
deactivation is implemented on the sender side: `handleTyping`
schedules, 1000 ms after the last keystroke, a `typing` message with
`is_typing: false`. -/
theorem C4_amended_removal_only_on_stop :
    (∀ (selfUser u : String) (evs : List TypingEvent) (s : List String),
        u ∈ s →
        (∀ ev ∈ evs, ¬(ev.user = u ∧ ev.is_typing = false)) →
        u ∈ processTypingEvents selfUser evs s) ∧
    typingStopDelayMs = 1000 ∧
    (∀ momentId, typingTimeoutMessage momentId =
      ⟨"typing", momentId, false⟩) :=
  ⟨fun selfUser u evs s hu hne =>
      processTypingEvents_preserves selfUser u evs s hu hne,
   rfl, fun _ => rfl⟩

/-- Witness for the amended C4 at concrete inputs. -/
theorem C4_amended_removal_only_on_stop_witness :
    "alice" ∈ processTypingEvents "self" [⟨"bob", false⟩] ["alice"] ∧
    typingStopDelayMs = 1000 ∧
    typingTimeoutMessage "m1" = ⟨"typing", "m1", false⟩ :=
  ⟨C4_amended_removal_only_on_stop.1 "self" "alice" [⟨"bob", false⟩]
      ["alice"] (by decide) (by decide),
   C4_amended_removal_only_on_stop.2.1,
   C4_amended_removal_only_on_stop.2.2 "m1"⟩

/-- C6 counterexample: in the legacy client a message that fails to
parse makes `socket.onmessage` throw — `JSON.parse` is not wrapped in
try/catch, so the exception escapes the router, refuting the claim that
every malformed inbound message is dropped with a logged warning
without crashing the router. -/
theorem C6_counterexample_legacy_parse_throws :
    momentOnMessage none ⟨[], 0, []⟩ = Except.error () := rfl

/-- C6 amended: the React router logs and drops unknown types and
catches parse failures with a logged error, changing no other state;
the legacy router drops unknown types silently (no log, no state
change, no throw) but does not catch parse failures, which escape as an
uncaught exception. -/
theorem C6_amended_router_error_handling :
    (∀ (d : CtxMsg) (s : CtxUIState),
        d.type ∉ ctxKnownTypes →
        handleWebSocketMessage d s =
          { s with logs :=
              s.logs ++ ["Unknown WebSocket message type: " ++ d.type] }) ∧
    (∀ s : CtxUIState,
        ctxOnMessage none s =
          { s with logs := s.logs ++ ["Error parsing WebSocket message"] }) ∧
    (∀ (j : Envelope) (s : ClientState),
        j.type ≠ "add_moment" → j.type ≠ "delete_moment" →
        momentOnMessage (some j) s = .ok s) ∧
    (∀ s : ClientState, momentOnMessage none s = .error ()) := by
  refine ⟨?_, fun s => rfl, ?_, fun s => rfl⟩
  · intro d s hd
    simp only [ctxKnownTypes, List.mem_cons, List.not_mem_nil, or_false,
      not_or] at hd
    obtain ⟨h1, h2, h3, h4, h5, h6, h7, h8, h9⟩ := hd
    unfold handleWebSocketMessage
    rw [if_neg h1, if_neg h2, if_neg h3, if_neg h4, if_neg h5, if_neg h6,
      if_neg h7, if_neg h8, if_neg h9]
  · intro j s h1 h2
    simp [momentOnMessage, h1, h2]

/-- Witness for the amended C6 at concrete inputs. -/
theorem C6_amended_router_error_handling_witness :
    handleWebSocketMessage ⟨"bogus", "", "", "", ""⟩ ⟨[], [], []⟩ =
      ⟨[], [], ["Unknown WebSocket message type: " ++ "bogus"]⟩ ∧
    ctxOnMessage none ⟨[], [], []⟩ =
      ⟨[], [], ["Error parsing WebSocket message"]⟩ ∧
    momentOnMessage (some ⟨"bogus", "v"⟩) ⟨[], 0, []⟩ =
      .ok ⟨[], 0, []⟩ ∧
    momentOnMessage none ⟨[], 0, []⟩ = .error () :=
  ⟨C6_amended_router_error_handling.1 ⟨"bogus", "", "", "", ""⟩ ⟨[], [], []⟩
      (by decide),
   C6_amended_router_error_handling.2.1 ⟨[], [], []⟩,
   C6_amended_router_error_handling.2.2.1 ⟨"bogus", "v"⟩ ⟨[], 0, []⟩
      (by decide) (by decide),
   C6_amended_router_error_handling.2.2.2 ⟨[], 0, []⟩⟩

/-- C7 counterexample: a send while the link is not open transmits
nothing and warns, but the caller receives `undefined` — the very value
returned on a successful send — so no return value or callback reports
the failure to the caller, refuting that part of the claim. -/
theorem C7_counterexample_no_caller_signal :
    (sendMessage true 0 "m").transmitted = [] ∧
    (sendMessage true 0 "m").callerResult = none ∧
    (sendMessage true 1 "m").callerResult = none := by
  decide

/-- C7 amended: a send while the link is not open transmits nothing,
buffers nothing, and surfaces a console warning plus an error toast —
but the caller gets no failure signal: the function returns `undefined`
on every path and takes no callback. -/
theorem C7_amended_send_fails_without_caller_signal :
    ∀ (socketExists : Bool) (readyState : Nat) (m : String),
      ¬(socketExists = true ∧ readyState = WebSocketOPEN) →
      (sendMessage socketExists readyState m).transmitted = [] ∧
      (sendMessage socketExists readyState m).buffered = [] ∧
      (sendMessage socketExists readyState m).warnings =
        ["WebSocket not connected"] ∧
      (sendMessage socketExists readyState m).toasts =
        ["Connection lost. Please refresh the page."] ∧
      (sendMessage socketExists readyState m).callerResult = none := by
  intro se rs m h
  have hc : (se && (rs == WebSocketOPEN)) = false := by
    cases se with
    | false => rfl
    | true =>
      have hrs : rs ≠ WebSocketOPEN := fun hr => h ⟨rfl, hr⟩
      simp [hrs]
  unfold sendMessage
  rw [hc]
  simp

/-- Witness for the amended C7 at a concrete closed socket. -/
theorem C7_amended_send_fails_without_caller_signal_witness :
    (sendMessage false 3 "ping").transmitted = [] ∧
    (sendMessage false 3 "ping").buffered = [] ∧
    (sendMessage false 3 "ping").warnings = ["WebSocket not connected"] ∧
    (sendMessage false 3 "ping").toasts =
      ["Connection lost. Please refresh the page."] ∧
    (sendMessage false 3 "ping").callerResult = none :=
  C7_amended_send_fails_without_caller_signal false 3 "ping" (by decide)

/-- C9 counterexample: on open, the React client announces identity
with a message of type `"auth"` (token and user fields), not with an
envelope of type `"init"` carrying the identity in `value`, refuting
the claim for that client. -/
theorem C9_counterexample_react_sends_auth :
    ctxOnOpenSends "tok" "alice" = [⟨"auth", "tok", "alice"⟩] ∧
    ("auth" : String) ≠ "init" := by
  refine ⟨rfl, ?_⟩
  decide

/-- C9 amended: on every open transition each client sends exactly one
message, before any other message on that socket: the legacy client an
`init` envelope whose `value` is the stored username; the React client
an `auth` message carrying the stored token and the username. -/
theorem C9_amended_identity_announcement_on_open :
    ∀ (username token : String),
      momentOnOpenSends username = [⟨"init", username⟩] ∧
      (momentOnOpenSends username).head? = some ⟨"init", username⟩ ∧
      ctxOnOpenSends token username = [⟨"auth", token, username⟩] ∧
      (ctxOnOpenSends token username).head? = some ⟨"auth", token, username⟩ :=
  fun _ _ => ⟨rfl, rfl, rfl, rfl⟩

/-- Helper: one processing step unfolded. -/
lemma processConfirmations_cons (c : String) (cs : List String)
    (s : ClientState) :
    processConfirmations (c :: cs) s =
      processConfirmations cs (handleAddMoment c s) := rfl

/-- C10: (i) an `add_moment` confirmation arriving with a non-empty
queue whose head placeholder element no longer exists still removes
exactly the head entry; the dequeued entry is silently discarded and
the confirmation is rendered as a brand-new prepended item, with no
other change.  (ii) Globally: after `cs.length + 1 + extra` submissions
from a clean state, with the oldest placeholder element evicted but its
queue entry left behind, the first arriving confirmation is consumed by
the stale entry and becomes a brand-new item, and each of the `cs`
later confirmations relabels the placeholder one submission older than
the one it belongs to — the stale entry shifts every later
positional match of every later confirmation by one (the newest `extra` placeholders
stay pending). -/
theorem C10_stale_entry_shifts_matching :
    (∀ (v : String) (h : Nat) (q' : List Nat) (tid : Nat) (M : List Element),
        (∀ e ∈ M, e.id ≠ tempName h) →
        handleAddMoment v ⟨h :: q', tid, M⟩ =
          ⟨q', tid, loadedElemNew v :: M⟩) ∧
    (∀ (s0 : ClientState) (c : String) (cs : List String) (extra : Nat),
        s0.tempQueue = [] →
        (∀ k, c ≠ tempName k) →
        (∀ e ∈ s0.moments, ∀ k, e.id ≠ tempName k) →
        processConfirmations (c :: cs)
          { createN (cs.length + 1 + extra) s0 with
              moments := removeElement (tempName s0.tempID)
                (createN (cs.length + 1 + extra) s0).moments } =
          ⟨List.range' (s0.tempID + 1 + cs.length) extra,
            s0.tempID + (cs.length + 1 + extra),
            loadedElemNew c ::
              ((List.range' (s0.tempID + 1 + cs.length) extra).reverse.map
                  tempElem ++
                ((cs.map loadedElemFound).reverse ++ s0.moments))⟩) := by
  constructor
  · exact handleAddMoment_missing
  · intro s0 c cs extra hq hc hclean
    rw [createN_spec, hq]
    simp only [List.nil_append]
    have hNsplit : List.range' s0.tempID (cs.length + 1 + extra) =
        s0.tempID :: List.range' (s0.tempID + 1) (cs.length + extra) := by
      have he : cs.length + 1 + extra = (cs.length + extra) + 1 := by omega
      rw [he, List.range'_succ]
    have hA1 : ∀ e ∈ (List.range' (s0.tempID + 1)
        (cs.length + extra)).reverse.map tempElem,
        e.id ≠ tempName s0.tempID := by
      intro e he
      rcases List.mem_map.mp he with ⟨k, hk, rfl⟩
      have hk' : k ∈ List.range' (s0.tempID + 1) (cs.length + extra) :=
        List.mem_reverse.mp hk
      have hge : s0.tempID + 1 ≤ k := (List.mem_range'_1.mp hk').1
      simp only [tempElem]
      intro hEq
      have := tempName_inj hEq
      omega
    have hrev : (List.range' s0.tempID (cs.length + 1 + extra)).reverse.map
        tempElem =
        (List.range' (s0.tempID + 1) (cs.length + extra)).reverse.map
          tempElem ++ [tempElem s0.tempID] := by
      rw [hNsplit, List.reverse_cons, List.map_append]
      rfl
    have hone : removeElement (tempName s0.tempID)
        ([tempElem s0.tempID] ++ s0.moments) = s0.moments := by
      simp only [List.singleton_append, removeElement, List.append_eq,
        List.nil_append]
      rw [if_pos (show (tempElem s0.tempID).id = tempName s0.tempID from rfl)]
    have hremove : removeElement (tempName s0.tempID)
        ((List.range' s0.tempID (cs.length + 1 + extra)).reverse.map tempElem
          ++ s0.moments) =
        (List.range' (s0.tempID + 1) (cs.length + extra)).reverse.map tempElem
          ++ s0.moments := by
      rw [hrev, List.append_assoc, removeElement_append_no_match _ _ hA1, hone]
    rw [hremove]
    have hA2 : ∀ e ∈ (List.range' (s0.tempID + 1)
          (cs.length + extra)).reverse.map tempElem ++ s0.moments,
        e.id ≠ tempName s0.tempID := by
      intro e he
      rcases List.mem_append.mp he with h1 | h2
      · exact hA1 e h1
      · exact hclean e h2 _
    have hstep := handleAddMoment_missing c s0.tempID
      (List.range' (s0.tempID + 1) (cs.length + extra))
      (s0.tempID + (cs.length + 1 + extra))
      ((List.range' (s0.tempID + 1) (cs.length + extra)).reverse.map tempElem
        ++ s0.moments) hA2
    rw [processConfirmations_cons, hNsplit, hstep]
    have hqaqb : List.range' (s0.tempID + 1) cs.length ++
        List.range' (s0.tempID + 1 + cs.length) extra =
        List.range' (s0.tempID + 1) (cs.length + extra) := by
      rw [List.range'_append_1]
      congr 1
      omega
    have hspec := processConfirmations_spec cs
      (List.range' (s0.tempID + 1) cs.length)
      (List.range' (s0.tempID + 1 + cs.length) extra)
      [loadedElemNew c] s0.moments (s0.tempID + (cs.length + 1 + extra))
      (by rw [hqaqb]; exact List.nodup_range' (s0.tempID + 1) (cs.length + extra))
      (by simp)
      (by
        intro e he k hk
        have : e = loadedElemNew c := by simpa using he
        subst this
        exact hc k)
    rw [hqaqb] at hspec
    simp only [List.singleton_append, List.cons_append] at hspec
    exact hspec

/-- Witness for C10: with three submissions from the empty state, the
oldest placeholder element evicted, and two confirmations arriving, the
first confirmation is consumed by the stale entry and rendered as a new
item, the second lands on placeholder 1, and placeholder 2 stays
pending. -/
theorem C10_stale_entry_shifts_matching_witness :
    handleAddMoment "n1" ⟨5 :: [6], 9, [loadedElemNew "z"]⟩ =
      ⟨[6], 9, loadedElemNew "n1" :: [loadedElemNew "z"]⟩ ∧
    processConfirmations ["c0", "c1"]
      { createN 3 ⟨[], 0, []⟩ with
          moments := removeElement (tempName 0)
            (createN 3 ⟨[], 0, []⟩).moments } =
      ⟨List.range' 2 1, 3,
        loadedElemNew "c0" ::
          ((List.range' 2 1).reverse.map tempElem ++
            ((["c1"].map loadedElemFound).reverse ++ []))⟩ :=
  ⟨C10_stale_entry_shifts_matching.1 "n1" 5 [6] 9 [loadedElemNew "z"]
      (by decide),
   C10_stale_entry_shifts_matching.2 ⟨[], 0, []⟩ "c0" ["c1"] 1 rfl
      (short_ne_tempName "c0" (by decide)) (by intro e he k; simp at he)⟩
